import Mathlib

/-!
Verification of the meshtasticboard dashboard (src/static/js/dashboard.js)
against its natural-language specification.

The definitions below are shallow embeddings of the JavaScript functions in
`dashboard.js`, translated line by line.  JS strings become `String` or
`List Char`, JS arrays become `List`, nullable/absent values become `Option`,
DOM element state is carried explicitly as record values, and loops become
structural recursion or folds mirroring the loop body.
-/

namespace Dashboard

/-- A mesh node record as it appears in `nodesData` (dashboard.js).
Numeric telemetry fields are kept at the precision the proofs need;
`latitude`/`longitude` are `Option` because a node may lack a GPS position.
`seenBy` is the property the aggregation loop adds (`n.seenBy = d.name`). -/
structure Node where
  id : String := ""
  longName : String := ""
  shortName : String := ""
  hwModel : String := ""
  battery : Nat := 0
  snr : Int := 0
  lastHeard : Nat := 0
  latitude : Option Int := none
  longitude : Option Int := none
  seenBy : String := ""
  deriving DecidableEq, Repr

/-- A configured device as returned by `/api/devices`: its configured name,
connection flag, and (optionally) the list of nodes it reports
(`d.nodes` may be absent, hence `Option`). -/
structure Device where
  name : String := ""
  connected : Bool := false
  nodes : Option (List Node) := none
  deriving DecidableEq, Repr

/-! ### Node aggregation (`loadAll`, dashboard.js lines 1510-1523)

```js
nodesData = [];
const seen = new Set();
for (const d of devices) {
    if (d.nodes) {
        for (const n of d.nodes) {
            if (!seen.has(n.id)) {
                seen.add(n.id);
                n.seenBy = d.name;
                nodesData.push(n);
            }
        }
    }
}
```
The `Set` is modelled as a `List String` with membership; `push` appends. -/

/-- Inner loop of the aggregation: walk one device's node list, skipping ids
already in `seen`, otherwise recording the id and appending the node tagged
with the device name. -/
def collectFromNodes (dname : String) : List Node → List String → List Node →
    List String × List Node
  | [], seen, acc => (seen, acc)
  | n :: rest, seen, acc =>
      if n.id ∈ seen then collectFromNodes dname rest seen acc
      else collectFromNodes dname rest (n.id :: seen)
        (acc ++ [{ n with seenBy := dname }])

/-- Outer loop of the aggregation over the device list; a device with no
`nodes` field is skipped (`if (d.nodes)`). -/
def collectFromDevices : List Device → List String → List Node →
    List String × List Node
  | [], seen, acc => (seen, acc)
  | d :: rest, seen, acc =>
      match d.nodes with
      | none => collectFromDevices rest seen acc
      | some ns =>
          let p := collectFromNodes d.name ns seen acc
          collectFromDevices rest p.1 p.2

/-- `nodesData` as computed by `loadAll`: the aggregation started from an
empty seen-set and empty list. -/
def collectNodes (devices : List Device) : List Node :=
  (collectFromDevices devices [] []).2

/-- The flattened observation stream underlying the aggregation: every
(device name, node) pair in device order, devices without a node list
contributing nothing. -/
def allObs (devices : List Device) : List (String × Node) :=
  devices.flatMap fun d => (d.nodes.getD []).map fun n => (d.name, n)

/-- Keep-first deduplication by node id over an observation stream: the
first observation of an id wins whole, tagged with its device's name;
later observations of the same id are dropped entirely. -/
def fwd : List (String × Node) → List String → List Node
  | [], _ => []
  | (dn, n) :: rest, seen =>
      if n.id ∈ seen then fwd rest seen
      else { n with seenBy := dn } :: fwd rest (n.id :: seen)

/-- Seen-set threading companion of `fwd`. -/
def fwdS : List (String × Node) → List String → List String
  | [], seen => seen
  | (_, n) :: rest, seen =>
      if n.id ∈ seen then fwdS rest seen
      else fwdS rest (n.id :: seen)

/-! ### Connection status badge (`updateConnectionStatus`, lines 1537-1551) -/

/-- `updateConnectionStatus`: returns the (textContent, className) pair the
function writes to the `connection-status` badge.  The JS consts
`allConnected = devices.every(d => d.connected)` and
`anyConnected = devices.some(d => d.connected)` are inlined into the
branch conditions they guard. -/
def updateConnectionStatus (devices : List Device) : String × String :=
  if (devices.all fun d => d.connected) ∧ devices.length > 0 then
    (toString devices.length ++ " devices connected", "badge badge-online")
  else if devices.any fun d => d.connected then
    ("Partial connection", "badge badge-online")
  else
    ("Disconnected", "badge badge-offline")

/-! ### Traceroute status badge (lines 2160-2167, 2182-2196, 2198-2203)

The per-request badge element `tr-status-${id}` starts as `Pending…`
(`addTracerouteResult`), is overwritten with `Timeout` by the poller when it
gives up (`pollTraceroute`), and is overwritten with `Complete` by
`updateTracerouteResult`, which the `traceroute_result` socket handler calls
unconditionally (line 3047). -/

/-- The (textContent, className) state of one `tr-status-${id}` badge. -/
structure TrStatusBadge where
  text : String
  className : String
  deriving DecidableEq, Repr

/-- Initial badge created by `addTracerouteResult` (line 2163). -/
def pendingBadge : TrStatusBadge := ⟨"Pending…", "badge badge-pending"⟩

/-- The poller's give-up write (lines 2186-2187): sets `Timeout`, ignoring
whatever the badge showed. -/
def onPollTimeout (_ : TrStatusBadge) : TrStatusBadge :=
  ⟨"Timeout", "badge badge-offline"⟩

/-- `updateTracerouteResult`'s badge write (lines 2201-2202): sets
`Complete` unconditionally — the current badge state is never consulted. -/
def onTracerouteResult (_ : TrStatusBadge) : TrStatusBadge :=
  ⟨"Complete", "badge badge-complete"⟩

/-! ### Traceroute polling loop (`pollTraceroute`, lines 2172-2196)

The `setInterval` loop is modelled as fuel-based recursion: one recursive
step per tick.  `resp a` is the result of the `fetchJSON` call on attempt
`a`: `some st` when the fetch succeeds with `res.status === st`, and
`none` when it throws — `fetchJSON` (line 1486) throws on any non-OK HTTP
status and `fetch` itself rejects on network failure, in which case the
loop's `catch` clause (lines 2192-2194) runs `clearInterval(interval)`
and nothing else: the loop stops without writing the `Timeout` badge.
`maxAttempts` and the 2000 ms interval are the source's constants. -/

def maxAttempts : Nat := 30

def pollIntervalMs : Nat := 2000

/-- Outcome of the polling loop: `complete` (status became complete and
`updateTracerouteResult` ran), `timeoutShown` (the loop stopped and wrote
the `Timeout` badge), `stoppedSilently` (a fetch threw: the `catch`
clause cleared the interval without writing any badge), `running` (fuel
exhausted — unreachable from the real entry point, see
`pollTraceroute_bounded_timeout`). -/
inductive PollOutcome where
  | complete
  | timeoutShown
  | stoppedSilently
  | running
  deriving DecidableEq, Repr

/-- One tick per recursive call: increment `attempts`, run the fetch —
if it throws, stop silently (`catch` clause); on a response, stop on
`complete`, stop writing `Timeout` on `error` or once
`attempts >= maxAttempts`, otherwise keep polling. Returns the number of
polls performed and the outcome. -/
def pollStep (resp : Nat → Option String) : Nat → Nat → Nat × PollOutcome
  | 0, attempts => (attempts, PollOutcome.running)
  | fuel + 1, attempts =>
      let a := attempts + 1
      match resp a with
      | none => (a, PollOutcome.stoppedSilently)
      | some st =>
          if st = "complete" then (a, PollOutcome.complete)
          else if st = "error" ∨ a ≥ maxAttempts then
            (a, PollOutcome.timeoutShown)
          else pollStep resp fuel a

/-- `pollTraceroute`: the loop entered with `attempts = 0`; fuel
`maxAttempts` suffices because every tick either stops the loop or, at
the latest, the `attempts >= maxAttempts` guard fires on the thirtieth
tick. -/
def pollTraceroute (resp : Nat → Option String) : Nat × PollOutcome :=
  pollStep resp maxAttempts 0

/-! ### MQTT live feed (`appendMqttPacket`, lines 2767-2799)

The feed container's `.mqtt-feed-row` children are modelled as the list of
packets whose rows they render (row markup carries no state the claims
need).  `appendMqttPacket` drops the packet when the port filter excludes
it, otherwise appends a row and, when the row count exceeds 500, removes
`rows[0]` — the oldest row. -/

/-- A packet record shown in the MQTT live feed. -/
structure MqttPacket where
  timestamp : Nat := 0
  fromId : String := ""
  toId : String := ""
  channel : String := ""
  portnum : String := ""
  payload : String := ""
  deriving DecidableEq, Repr

/-- `appendMqttPacket`: `filter` is the `mqtt-feed-filter` value (empty
string = no filter, JS falsy).  `if (filter && pkt.portnum !== filter)
return;` then append, then `if (rows.length > 500) rows[0].remove();`. -/
def appendMqttPacket (filter : String) (feed : List MqttPacket)
    (pkt : MqttPacket) : List MqttPacket :=
  if filter ≠ "" ∧ pkt.portnum ≠ filter then feed
  else
    let f := feed ++ [pkt]
    if f.length > 500 then f.tail else f

/-! ### Topology graph links (`renderTopologyGraph`, lines 1992-2004)

```js
const nodeMap = {};
nodes.forEach((n, i) => { n.index = i; nodeMap[n.id] = n; });
const links = [];
edges.forEach(e => {
    const source = nodeMap[e.from];
    const target = nodeMap[e.to];
    if (source && target) {
        links.push({ source: source.index, target: target.index, snr: e.snr, rssi: e.rssi });
    }
});
```
`nodeMap` assignment in ascending order means the last node with a given id
wins; the lookup is modelled as a left fold where later matches overwrite
earlier ones. -/

/-- A node of a topology snapshot (`data.nodes`). -/
structure TopoNode where
  id : String := ""
  longName : String := ""
  deriving DecidableEq, Repr

/-- An edge of a topology snapshot (`data.edges`); `from`/`to` are Lean
keywords so the fields are `fromId`/`toId`. -/
structure TopoEdge where
  fromId : String := ""
  toId : String := ""
  snr : Option Int := none
  rssi : Option Int := none
  deriving DecidableEq, Repr

/-- A drawn link: indices into the node array plus signal data. -/
structure TopoLink where
  source : Nat
  target : Nat
  snr : Option Int
  rssi : Option Int
  deriving DecidableEq, Repr

/-- `nodeMap[k]` after the `forEach`: the last `(index, node)` entry whose
id is `k`, if any (later object-key assignments overwrite earlier ones). -/
def nodeMapLookup (nodes : List TopoNode) (k : String) :
    Option (Nat × TopoNode) :=
  nodes.enum.foldl (fun acc p => if p.2.id = k then some p else acc) none

/-- The link built from one edge, `none` when either endpoint is missing
from `nodeMap` (the `if (source && target)` guard). -/
def linkFor (nodes : List TopoNode) (e : TopoEdge) : Option TopoLink :=
  match nodeMapLookup nodes e.fromId, nodeMapLookup nodes e.toId with
  | some s, some t => some ⟨s.1, t.1, e.snr, e.rssi⟩
  | _, _ => none

/-- The `links` array built by the `edges.forEach` push loop. -/
def buildLinks (nodes : List TopoNode) (edges : List TopoEdge) :
    List TopoLink :=
  edges.filterMap (linkFor nodes)

/-! ### `position_update` socket handler (lines 3032-3040)

```js
const node = nodesData.find(n => n.id === data.from);
if (node && data.position) {
    node.latitude = data.position.latitude;
    node.longitude = data.position.longitude;
    updateMap(nodesData);
}
```
`find` returns the first match, which is then mutated in place; modelled as
rebuilding the list with only the first matching element replaced. -/

/-- The payload of a `position_update` event. -/
structure PositionUpdate where
  fromId : String := ""
  position : Option (Int × Int) := none
  deriving DecidableEq, Repr

/-- Replace the first node whose id matches with its position overwritten. -/
def setFirstPosition (fromId : String) (lat lon : Int) :
    List Node → List Node
  | [] => []
  | n :: rest =>
      if n.id = fromId then
        { n with latitude := some lat, longitude := some lon } :: rest
      else n :: setFirstPosition fromId lat lon rest

/-- The `position_update` handler's effect on `nodesData`. -/
def applyPositionUpdate (nodes : List Node) (ev : PositionUpdate) :
    List Node :=
  match ev.position with
  | none => nodes
  | some (lat, lon) => setFirstPosition ev.fromId lat lon nodes

/-! ### The two `escapeHtml` copies (lines 564-568 and 2818-2820)

First copy (DOM-based):
```js
function escapeHtml(text) {
    const d = document.createElement("div");
    d.textContent = text;
    return d.innerHTML;
}
```
Reading `innerHTML` serializes the text node per the WHATWG HTML
fragment-serialization rules: `&` → `&amp;`, U+00A0 → `&nbsp;`, `<` →
`&lt;`, `>` → `&gt;`; double quotes are NOT escaped in text nodes.

Second copy (regex-based), four chained global single-character replaces:
```js
function escapeHtml(str) {
    return str.replace(/&/g,"&amp;").replace(/</g,"&lt;")
              .replace(/>/g,"&gt;").replace(/"/g,"&quot;");
}
```
Strings are modelled as `List Char`; a global single-character regex
replace is exactly a flat-map over the characters. -/

/-- `s.replace(/c/g, rep)` for a single-character pattern `c`. -/
def replaceAllChar (target : Char) (rep : List Char) (s : List Char) :
    List Char :=
  s.flatMap fun c => if c = target then rep else [c]

/-- The regex-based second copy of `escapeHtml` (line 2819), in source
order: `&` first, then `<`, `>`, `"`. -/
def escapeHtmlRegex (s : List Char) : List Char :=
  replaceAllChar '"' "&quot;".data
    (replaceAllChar '>' "&gt;".data
      (replaceAllChar '<' "&lt;".data
        (replaceAllChar '&' "&amp;".data s)))

/-- Per-character WHATWG text-node serialization used by the DOM-based
first copy of `escapeHtml` (lines 564-568): escapes `&`, U+00A0, `<`, `>`
and nothing else. -/
def domEscapeChar (c : Char) : List Char :=
  if c = '&' then "&amp;".data
  else if c = Char.ofNat 160 then "&nbsp;".data
  else if c = '<' then "&lt;".data
  else if c = '>' then "&gt;".data
  else [c]

/-- The DOM-based first copy of `escapeHtml`: set `textContent`, read back
`innerHTML`. -/
def escapeHtmlDom (s : List Char) : List Char :=
  s.flatMap domEscapeChar

/-- The per-character entity map the chained regex replaces amount to
(claim C10's "every occurrence replaced by its entity, `&` first"). -/
def entityOf (c : Char) : List Char :=
  if c = '&' then "&amp;".data
  else if c = '<' then "&lt;".data
  else if c = '>' then "&gt;".data
  else if c = '"' then "&quot;".data
  else [c]

/-! ## Helper lemmas -/

lemma append_suffix_ne_partial_text (s : String) :
    s ++ " devices connected" ≠ "Partial connection" := by
  intro h
  have hl := congrArg String.length h
  have h18 : (" devices connected" : String).length = 18 := by decide
  have hp : ("Partial connection" : String).length = 18 := by decide
  rw [String.length_append, h18, hp] at hl
  have hs : s = "" := by
    cases s with
    | mk data => simp [String.length] at hl; simp [hl]
  subst hs
  simp at h

lemma append_suffix_ne_disconnected (s : String) :
    s ++ " devices connected" ≠ "Disconnected" := by
  intro h
  have hl := congrArg String.length h
  have h18 : (" devices connected" : String).length = 18 := by decide
  have hp : ("Disconnected" : String).length = 12 := by decide
  rw [String.length_append, h18, hp] at hl
  omega

lemma appendMqttPacket_length_le (filter : String) (feed : List MqttPacket)
    (pkt : MqttPacket) (h : feed.length ≤ 500) :
    (appendMqttPacket filter feed pkt).length ≤ 500 := by
  simp only [appendMqttPacket]
  split_ifs with h1 h2
  · exact h
  · simp
    omega
  · simp at h2 ⊢
    omega

lemma foldl_appendMqttPacket_length_le (filter : String) :
    ∀ (pkts : List MqttPacket) (feed : List MqttPacket),
      feed.length ≤ 500 →
      (pkts.foldl (appendMqttPacket filter) feed).length ≤ 500 := by
  intro pkts
  induction pkts with
  | nil => intro feed h; simpa using h
  | cons p rest ih =>
      intro feed h
      simpa using ih (appendMqttPacket filter feed p)
        (appendMqttPacket_length_le filter feed p h)

lemma setFirstPosition_spec (fid : String) (lat lon : Int) :
    ∀ nodes : List Node,
      ((∀ m ∈ nodes, m.id ≠ fid) ∧ setFirstPosition fid lat lon nodes = nodes) ∨
      ∃ pre n post, nodes = pre ++ n :: post ∧ n.id = fid ∧
        (∀ m ∈ pre, m.id ≠ fid) ∧
        setFirstPosition fid lat lon nodes =
          pre ++ { n with latitude := some lat, longitude := some lon } :: post := by
  intro nodes
  induction nodes with
  | nil => left; exact ⟨by simp, rfl⟩
  | cons n rest ih =>
      by_cases h : n.id = fid
      · right
        exact ⟨[], n, rest, by simp, h, by simp, by simp [setFirstPosition, h]⟩
      · rcases ih with ⟨hall, heq⟩ | ⟨pre, m, post, hsplit, hid, hpre, heq⟩
        · left
          refine ⟨?_, by simp [setFirstPosition, h, heq]⟩
          intro m hm
          rcases List.mem_cons.mp hm with rfl | hm2
          · exact h
          · exact hall m hm2
        · right
          refine ⟨n :: pre, m, post, by simp [hsplit], hid, ?_,
            by simp [setFirstPosition, h, heq]⟩
          intro m' hm'
          rcases List.mem_cons.mp hm' with rfl | hm2
          · exact h
          · exact hpre m' hm2

lemma foldl_nodeMap_isSome (k : String) :
    ∀ (l : List (Nat × TopoNode)) (acc : Option (Nat × TopoNode)),
      (l.foldl (fun acc p => if p.2.id = k then some p else acc) acc).isSome =
        (acc.isSome || l.any fun p => p.2.id = k) := by
  intro l
  induction l with
  | nil => intro acc; simp
  | cons p rest ih =>
      intro acc
      by_cases h : p.2.id = k
      · simp [List.foldl_cons, h, ih]
      · simp [List.foldl_cons, h, ih]

lemma nodeMapLookup_isSome (nodes : List TopoNode) (k : String) :
    (nodeMapLookup nodes k).isSome ↔ k ∈ nodes.map fun n => n.id := by
  unfold nodeMapLookup
  rw [foldl_nodeMap_isSome]
  simp only [Option.isSome_none, Bool.false_or, List.any_eq_true]
  constructor
  · rintro ⟨p, hp, hid⟩
    have hmem : p.2 ∈ nodes := by
      have := List.mem_map_of_mem Prod.snd hp
      simpa [List.enum_map_snd] using this
    exact List.mem_map.mpr ⟨p.2, hmem, by simpa using hid⟩
  · intro hk
    rcases List.mem_map.mp hk with ⟨n, hn, hid⟩
    rcases List.mem_iff_get.mp hn with ⟨i, hget⟩
    refine ⟨(i.1, n), ?_, by simpa using hid⟩
    rw [← hget]
    exact List.mem_enum_iff_getElem?.mpr
      (by simp [List.getElem?_eq_getElem i.2, List.get_eq_getElem])

lemma replaceAllChar_append (target : Char) (rep : List Char)
    (a b : List Char) :
    replaceAllChar target rep (a ++ b) =
      replaceAllChar target rep a ++ replaceAllChar target rep b := by
  simp [replaceAllChar]

lemma escapeHtmlRegex_append (a b : List Char) :
    escapeHtmlRegex (a ++ b) = escapeHtmlRegex a ++ escapeHtmlRegex b := by
  simp [escapeHtmlRegex, replaceAllChar_append]

lemma escapeHtmlRegex_singleton (c : Char) :
    escapeHtmlRegex [c] = entityOf c := by
  by_cases h1 : c = '&'
  · subst h1; decide
  · by_cases h2 : c = '<'
    · subst h2; decide
    · by_cases h3 : c = '>'
      · subst h3; decide
      · by_cases h4 : c = '"'
        · subst h4; decide
        · simp [escapeHtmlRegex, replaceAllChar, entityOf, h1, h2, h3, h4]

lemma escapeHtmlRegex_eq_flatMap :
    ∀ s : List Char, escapeHtmlRegex s = s.flatMap entityOf := by
  intro s
  induction s with
  | nil => rfl
  | cons c rest ih =>
      have : c :: rest = [c] ++ rest := rfl
      rw [this, escapeHtmlRegex_append, escapeHtmlRegex_singleton, ih]
      simp

lemma entityOf_no_raw (c : Char) :
    '<' ∉ entityOf c ∧ '>' ∉ entityOf c ∧ '"' ∉ entityOf c := by
  by_cases h1 : c = '&'
  · subst h1; decide
  · by_cases h2 : c = '<'
    · subst h2; decide
    · by_cases h3 : c = '>'
      · subst h3; decide
      · by_cases h4 : c = '"'
        · subst h4; decide
        · simp only [entityOf, if_neg h1, if_neg h2, if_neg h3, if_neg h4]
          exact ⟨fun h => h2 (List.mem_singleton.mp h).symm,
            fun h => h3 (List.mem_singleton.mp h).symm,
            fun h => h4 (List.mem_singleton.mp h).symm⟩

lemma domEscapeChar_eq_entityOf (c : Char) (h1 : c ≠ '"')
    (h2 : c ≠ Char.ofNat 160) : domEscapeChar c = entityOf c := by
  by_cases ha : c = '&'
  · subst ha; decide
  · by_cases hb : c = '<'
    · subst hb; decide
    · by_cases hc : c = '>'
      · subst hc; decide
      · simp [domEscapeChar, entityOf, ha, hb, hc, h1, h2]

lemma pollStep_timeout (resp : Nat → Option String)
    (hresp : ∀ n, resp n ≠ some "complete") :
    ∀ (fuel attempts : Nat), 1 ≤ fuel → attempts + fuel = maxAttempts →
      (pollStep resp fuel attempts).1 ≤ maxAttempts ∧
      ((pollStep resp fuel attempts).2 = PollOutcome.timeoutShown ∨
       (pollStep resp fuel attempts).2 = PollOutcome.stoppedSilently) ∧
      ((∀ n, attempts < n → n ≤ maxAttempts → (resp n).isSome) →
        (pollStep resp fuel attempts).2 = PollOutcome.timeoutShown) := by
  intro fuel
  induction fuel with
  | zero => intro attempts h1 _; omega
  | succ f ih =>
      intro attempts _ hsum
      simp only [pollStep]
      cases hr : resp (attempts + 1) with
      | none =>
          dsimp only
          refine ⟨by omega, Or.inr rfl, ?_⟩
          intro hsome
          have hs := hsome (attempts + 1) (by omega) (by omega)
          rw [hr] at hs
          simp at hs
      | some st =>
          have hst : ¬ st = "complete" := by
            intro h
            exact hresp (attempts + 1) (by rw [hr, h])
          dsimp only
          rw [if_neg hst]
          by_cases hstop : st = "error" ∨ attempts + 1 ≥ maxAttempts
          · rw [if_pos hstop]
            exact ⟨by omega, Or.inl rfl, fun _ => rfl⟩
          · rw [if_neg hstop]
            have hlt : attempts + 1 < maxAttempts := by
              rcases Nat.lt_or_ge (attempts + 1) maxAttempts with h | h
              · exact h
              · exact absurd (Or.inr h) hstop
            have hrec := ih (attempts + 1) (by omega) (by omega)
            refine ⟨hrec.1, hrec.2.1, ?_⟩
            intro hsome
            exact hrec.2.2 fun n hn1 hn2 => hsome n (by omega) hn2

lemma collectFromNodes_eq (dn : String) :
    ∀ (ns : List Node) (seen : List String) (acc : List Node),
      collectFromNodes dn ns seen acc =
        (fwdS (ns.map fun n => (dn, n)) seen,
         acc ++ fwd (ns.map fun n => (dn, n)) seen) := by
  intro ns
  induction ns with
  | nil => intro seen acc; simp [collectFromNodes, fwdS, fwd]
  | cons n rest ih =>
      intro seen acc
      by_cases h : n.id ∈ seen
      · simp [collectFromNodes, fwd, fwdS, h, ih]
      · simp [collectFromNodes, fwd, fwdS, h, ih]

lemma fwd_append :
    ∀ (a b : List (String × Node)) (seen : List String),
      fwd (a ++ b) seen = fwd a seen ++ fwd b (fwdS a seen) := by
  intro a
  induction a with
  | nil => intro b seen; simp [fwd, fwdS]
  | cons p rest ih =>
      intro b seen
      obtain ⟨dn, n⟩ := p
      by_cases h : n.id ∈ seen
      · simp [fwd, fwdS, h, ih]
      · simp [fwd, fwdS, h, ih]

lemma fwdS_append :
    ∀ (a b : List (String × Node)) (seen : List String),
      fwdS (a ++ b) seen = fwdS b (fwdS a seen) := by
  intro a
  induction a with
  | nil => intro b seen; simp [fwdS]
  | cons p rest ih =>
      intro b seen
      obtain ⟨dn, n⟩ := p
      by_cases h : n.id ∈ seen
      · simp [fwdS, h, ih]
      · simp [fwdS, h, ih]

lemma collectFromDevices_eq :
    ∀ (ds : List Device) (seen : List String) (acc : List Node),
      collectFromDevices ds seen acc =
        (fwdS (allObs ds) seen, acc ++ fwd (allObs ds) seen) := by
  intro ds
  induction ds with
  | nil => intro seen acc; simp [collectFromDevices, allObs, fwd, fwdS]
  | cons d rest ih =>
      intro seen acc
      cases hnd : d.nodes with
      | none => simp [collectFromDevices, hnd, allObs, ih]
      | some ns =>
          simp [collectFromDevices, hnd, collectFromNodes_eq, ih, allObs,
            fwd_append, fwdS_append]

lemma fwd_ids_nodup :
    ∀ (l : List (String × Node)) (seen : List String),
      ((fwd l seen).map fun n => n.id).Nodup ∧
      ∀ n ∈ fwd l seen, n.id ∉ seen := by
  intro l
  induction l with
  | nil => intro seen; simp [fwd]
  | cons p rest ih =>
      intro seen
      obtain ⟨dn, n⟩ := p
      by_cases h : n.id ∈ seen
      · simpa [fwd, h] using ih seen
      · have iht := ih (n.id :: seen)
        constructor
        · simp only [fwd, if_neg h, List.map_cons, List.nodup_cons]
          refine ⟨?_, iht.1⟩
          intro hmem
          rcases List.mem_map.mp hmem with ⟨m, hm, hid⟩
          have hid2 : m.id = n.id := hid
          exact iht.2 m hm (by rw [hid2]; exact List.mem_cons_self _ _)
        · intro m hm
          simp only [fwd, if_neg h, List.mem_cons] at hm
          rcases hm with rfl | hm2
          · simpa using h
          · intro hmem
            exact iht.2 m hm2 (List.mem_cons_of_mem _ hmem)

/-- C2 (counterexample input): two devices each reporting the same node id
`n1`; device `B`'s observation carries the strictly greater last-heard
timestamp and a different battery value. -/
def c2NodeA : Node := { id := "n1", battery := 10, lastHeard := 100 }

def c2NodeB : Node := { id := "n1", battery := 99, lastHeard := 200 }

def c2Devices : List Device :=
  [{ name := "A", connected := true, nodes := some [c2NodeA] },
   { name := "B", connected := true, nodes := some [c2NodeB] }]

/-! ## Claim theorems -/

/-- C1 (counterexample): the claim "a late `traceroute_result` event for
the request never changes the displayed status from Timeout back to
Complete" is false at a concrete input: starting from the initial
`Pending…` badge, the poller's give-up write displays `Timeout`, and a
subsequent `traceroute_result` event rewrites the badge to `Complete`. -/
theorem late_traceroute_result_overwrites_timeout :
    (onPollTimeout pendingBadge).text = "Timeout" ∧
    (onTracerouteResult (onPollTimeout pendingBadge)).text = "Complete" ∧
    ("Complete" : String) ≠ "Timeout" := by
  refine ⟨rfl, rfl, ?_⟩
  decide

/-- C1 (amended): after the poller gives up it displays `Timeout`, but the
`traceroute_result` socket handler is unconditional — it rewrites any
badge, a timed-out one included, to `Complete`; late resolutions are
applied at the presentation layer, not rejected. -/
theorem traceroute_result_unconditional :
    ∀ b : TrStatusBadge,
      (onPollTimeout b).text = "Timeout" ∧
      onTracerouteResult (onPollTimeout b) =
        ⟨"Complete", "badge badge-complete"⟩ := by
  intro b
  exact ⟨rfl, rfl⟩

/-- C5: the MQTT live feed is bounded with oldest-first eviction: from a
feed of at most 500 rows, `appendMqttPacket` yields at most 500 rows; when
the packet passes the port filter and the feed is full (exactly 500 rows)
the result is the feed with its first (oldest) row removed and the new row
appended; and any sequence of appends starting from the empty feed stays
within 500 rows. -/
theorem appendMqttPacket_bounded :
    ∀ (filter : String) (pkt : MqttPacket) (feed : List MqttPacket),
      feed.length ≤ 500 →
      (appendMqttPacket filter feed pkt).length ≤ 500 ∧
      (¬(filter ≠ "" ∧ pkt.portnum ≠ filter) → feed.length = 500 →
        appendMqttPacket filter feed pkt = feed.tail ++ [pkt]) ∧
      ∀ pkts : List MqttPacket,
        (pkts.foldl (appendMqttPacket filter) []).length ≤ 500 := by
  intro filter pkt feed h
  refine ⟨appendMqttPacket_length_le filter feed pkt h, ?_, ?_⟩
  · intro hfilter hfull
    unfold appendMqttPacket
    rw [if_neg hfilter]
    have hgt : (feed ++ [pkt]).length > 500 := by simp [hfull]
    rw [if_pos hgt]
    cases feed with
    | nil => simp at hfull
    | cons x rest => simp
  · intro pkts
    exact foldl_appendMqttPacket_length_le filter pkts [] (by simp)

/-- C5 (witness): concrete instantiation — appending one packet to the
empty unfiltered feed stays within the bound, and so does a fold of three
appends. -/
theorem appendMqttPacket_bounded_witness :
    (appendMqttPacket "" [] { portnum := "TEXT_MESSAGE_APP" }).length ≤ 500 ∧
    ((List.replicate 3 { portnum := "TEXT_MESSAGE_APP" : MqttPacket }).foldl
      (appendMqttPacket "") []).length ≤ 500 :=
  ⟨(appendMqttPacket_bounded "" { portnum := "TEXT_MESSAGE_APP" } []
      (by decide)).1,
   (appendMqttPacket_bounded "" { portnum := "TEXT_MESSAGE_APP" } []
      (by decide)).2.2 (List.replicate 3 { portnum := "TEXT_MESSAGE_APP" })⟩

/-- C8: a `position_update` event either leaves `nodesData` completely
unchanged (no position payload, or no node with the event's from-id — in
particular no new node is created), or it rewrites exactly the first node
whose id matches, changing only its `latitude` and `longitude` fields and
leaving every other node in place. -/
theorem applyPositionUpdate_frame :
    ∀ (nodes : List Node) (ev : PositionUpdate),
      applyPositionUpdate nodes ev = nodes ∨
      ∃ lat lon pre n post,
        ev.position = some (lat, lon) ∧
        nodes = pre ++ n :: post ∧
        n.id = ev.fromId ∧
        (∀ m ∈ pre, m.id ≠ ev.fromId) ∧
        applyPositionUpdate nodes ev =
          pre ++ { n with latitude := some lat, longitude := some lon } :: post := by
  intro nodes ev
  unfold applyPositionUpdate
  cases hpos : ev.position with
  | none => left; rfl
  | some p =>
      obtain ⟨lat, lon⟩ := p
      rcases setFirstPosition_spec ev.fromId lat lon nodes with
        ⟨_, heq⟩ | ⟨pre, n, post, hsplit, hid, hpre, heq⟩
      · left; exact heq
      · right; exact ⟨lat, lon, pre, n, post, rfl, hsplit, hid, hpre, heq⟩

/-- C9: with zero configured devices the connection badge reads
`Disconnected` (the all-connected branch requires a non-empty list), and
the `N devices connected` text is shown exactly when the device list is
non-empty and every device is connected. -/
theorem updateConnectionStatus_spec :
    ∀ devices : List Device,
      (devices = [] →
        updateConnectionStatus devices = ("Disconnected", "badge badge-offline")) ∧
      ((updateConnectionStatus devices).1 =
          toString devices.length ++ " devices connected" ↔
        devices ≠ [] ∧ devices.all (fun d => d.connected) = true) := by
  intro devices
  constructor
  · rintro rfl
    decide
  · constructor
    · intro h
      unfold updateConnectionStatus at h
      split_ifs at h with h1 h2
      · refine ⟨?_, h1.1⟩
        rintro rfl
        exact absurd h1.2 (by simp)
      · simp only at h
        exact absurd h.symm (append_suffix_ne_partial_text _)
      · simp only at h
        exact absurd h.symm (append_suffix_ne_disconnected _)
    · rintro ⟨hne, hall⟩
      have hlen : devices.length > 0 := by
        cases devices with
        | nil => exact absurd rfl hne
        | cons d rest => simp
      unfold updateConnectionStatus
      split_ifs with h1 h2
      · rfl
      · exact absurd ⟨hall, hlen⟩ h1
      · exact absurd ⟨hall, hlen⟩ h1

/-- C7: the drawn link set of a topology snapshot is obtained edge-wise
from `linkFor`, and an edge contributes a link exactly when both its
from-id and its to-id occur among the snapshot's node ids — every edge
referencing a missing endpoint is filtered out. -/
theorem buildLinks_endpoint_filter :
    ∀ (nodes : List TopoNode) (edges : List TopoEdge),
      buildLinks nodes edges = edges.filterMap (linkFor nodes) ∧
      ∀ e : TopoEdge,
        (linkFor nodes e).isSome ↔
          (e.fromId ∈ nodes.map fun n => n.id) ∧
          (e.toId ∈ nodes.map fun n => n.id) := by
  intro nodes edges
  refine ⟨rfl, ?_⟩
  intro e
  have hf := nodeMapLookup_isSome nodes e.fromId
  have ht := nodeMapLookup_isSome nodes e.toId
  unfold linkFor
  rcases h1 : nodeMapLookup nodes e.fromId with _ | s <;>
    rcases h2 : nodeMapLookup nodes e.toId with _ | t <;>
    rw [h1] at hf <;> rw [h2] at ht <;> simp_all

/-- C6 (counterexample): the claim "the polling loop stops polling and
reports the request as timed out" is false at a concrete input: when the
very first fetch throws (`fetchJSON` throws on network failure or non-OK
HTTP, line 1486), the `catch` clause (lines 2192-2194) clears the
interval after a single poll and the loop stops without writing the
`Timeout` badge — the request's status never became complete, yet it is
not reported as timed out. -/
theorem pollTraceroute_throw_stops_silently :
    pollTraceroute (fun _ => none) = (1, PollOutcome.stoppedSilently) ∧
    PollOutcome.stoppedSilently ≠ PollOutcome.timeoutShown := by
  decide

/-- C6 (amended): for a traceroute request whose reported status is never
`complete`, the polling loop always terminates within the fixed bound —
at most `maxAttempts = 30` polls, one per 2000 ms tick, hence at most
60 s of polling — and then stops, either showing the `Timeout` badge or,
when a fetch threw, stopping silently; when every fetch within the bound
succeeds, it does report the request as timed out. -/
theorem pollTraceroute_bounded_timeout :
    ∀ resp : Nat → Option String,
      (∀ n, resp n ≠ some "complete") →
      (pollTraceroute resp).1 ≤ maxAttempts ∧
      (pollTraceroute resp).1 * pollIntervalMs ≤ 60000 ∧
      ((pollTraceroute resp).2 = PollOutcome.timeoutShown ∨
       (pollTraceroute resp).2 = PollOutcome.stoppedSilently) ∧
      ((∀ n, 1 ≤ n → n ≤ maxAttempts → (resp n).isSome) →
        (pollTraceroute resp).2 = PollOutcome.timeoutShown) := by
  intro resp hresp
  have h := pollStep_timeout resp hresp maxAttempts 0 (by decide) (by simp)
  refine ⟨h.1, ?_, h.2.1, fun hsome => h.2.2 fun n hn1 hn2 => hsome n hn1 hn2⟩
  calc (pollTraceroute resp).1 * pollIntervalMs
      ≤ 30 * pollIntervalMs := Nat.mul_le_mul_right _ h.1
    _ = 60000 := rfl

/-- C6 (witness): a request whose fetches all succeed with status
`pending` stays within the 30-poll bound and ends with the `Timeout`
badge shown. -/
theorem pollTraceroute_bounded_timeout_witness :
    (pollTraceroute fun _ => some "pending").1 ≤ maxAttempts ∧
    (pollTraceroute fun _ => some "pending").2 = PollOutcome.timeoutShown :=
  ⟨(pollTraceroute_bounded_timeout (fun _ => some "pending")
      (fun _ h => by simp at h)).1,
   (pollTraceroute_bounded_timeout (fun _ => some "pending")
      (fun _ h => by simp at h)).2.2.2 fun _ _ _ => rfl⟩

/-- C2 (counterexample): the aggregation is not last-writer-wins per
field — with two devices reporting node `n1`, the combined list keeps
device `A`'s whole record (battery 10, lastHeard 100) even though device
`B`'s observation of the same node carries the strictly greater timestamp
(200) and battery 99; the fresher field values are discarded. -/
theorem collectNodes_not_lww :
    collectNodes c2Devices = [{ c2NodeA with seenBy := "A" }] ∧
    c2NodeA.lastHeard < c2NodeB.lastHeard ∧
    ({ c2NodeA with seenBy := "A" } : Node).battery ≠ c2NodeB.battery := by
  decide

/-- C2 (amended): the aggregated node list is first-writer-wins by whole
record, not last-writer-wins by field: it equals the keep-first
deduplication by node id of the flattened (device, node) observation
stream in device order, each kept record being the first device's complete
observation tagged with that device's name; observations of an already
seen id — whatever their timestamps — contribute nothing. -/
theorem collectNodes_first_wins :
    ∀ devices : List Device,
      collectNodes devices = fwd (allObs devices) [] := by
  intro ds
  unfold collectNodes
  rw [collectFromDevices_eq]
  simp

/-- C4: node ids are globally unique in the aggregated view — the combined
node list built by `loadAll` never contains two entries with the same id,
whatever the per-device node lists are. -/
theorem collectNodes_ids_nodup :
    ∀ devices : List Device,
      ((collectNodes devices).map fun n => n.id).Nodup := by
  intro ds
  unfold collectNodes
  rw [collectFromDevices_eq]
  simpa using (fwd_ids_nodup (allObs ds) []).1

/-- C10: the regex-based `escapeHtml` of the second presentation-layer
copy equals the per-character entity map (`&` is replaced first, so the
entities produced by the later replaces are never re-escaped), and its
output contains no raw `<`, `>` or `"` character. -/
theorem escapeHtmlRegex_no_raw :
    ∀ s : List Char,
      escapeHtmlRegex s = s.flatMap entityOf ∧
      '<' ∉ escapeHtmlRegex s ∧ '>' ∉ escapeHtmlRegex s ∧
      '"' ∉ escapeHtmlRegex s := by
  intro s
  have heq := escapeHtmlRegex_eq_flatMap s
  refine ⟨heq, ?_, ?_, ?_⟩ <;> rw [heq] <;> intro hmem <;>
    rcases List.mem_flatMap.mp hmem with ⟨c, hc, hx⟩
  · exact (entityOf_no_raw c).1 hx
  · exact (entityOf_no_raw c).2.1 hx
  · exact (entityOf_no_raw c).2.2 hx

/-- C3 (counterexample): the two `escapeHtml` copies are not behaviourally
equivalent — on the one-character input `"` the DOM-based first copy
returns `"` unchanged (text-node serialization does not escape quotes)
while the regex-based second copy returns `&quot;`. -/
theorem escapeHtml_copies_differ :
    escapeHtmlDom ['"'] = ['"'] ∧
    escapeHtmlRegex ['"'] = "&quot;".data ∧
    escapeHtmlDom ['"'] ≠ escapeHtmlRegex ['"'] := by
  decide

/-- C3 (amended): the two `escapeHtml` copies agree on every string that
contains no double quote and no U+00A0 — the two characters on which
their escaping differs. -/
theorem escapeHtmlDom_eq_regex_of_no_quote :
    ∀ s : List Char, '"' ∉ s → Char.ofNat 160 ∉ s →
      escapeHtmlDom s = escapeHtmlRegex s := by
  intro s hq hn
  rw [escapeHtmlRegex_eq_flatMap]
  unfold escapeHtmlDom
  induction s with
  | nil => rfl
  | cons c rest ih =>
      have hq1 : c ≠ '"' := fun h => hq (by simp [h])
      have hq2 : '"' ∉ rest := fun h => hq (by simp [h])
      have hn1 : c ≠ Char.ofNat 160 := fun h => hn (by simp [h])
      have hn2 : Char.ofNat 160 ∉ rest := fun h => hn (by simp [h])
      rw [List.flatMap_cons, List.flatMap_cons,
        domEscapeChar_eq_entityOf c hq1 hn1, ih hq2 hn2]

/-- C3 (witness): the two copies agree on the quote-free string
`a<b&c>d`. -/
theorem escapeHtmlDom_eq_regex_witness :
    escapeHtmlDom "a<b&c>d".data = escapeHtmlRegex "a<b&c>d".data :=
  escapeHtmlDom_eq_regex_of_no_quote "a<b&c>d".data (by decide) (by decide)

/-- C9 (witness): the empty list shows `Disconnected`; one connected
device shows `1 devices connected`. -/
theorem updateConnectionStatus_spec_witness :
    updateConnectionStatus [] = ("Disconnected", "badge badge-offline") ∧
    (updateConnectionStatus
      [{ name := "dev1", connected := true, nodes := none }]).1 =
      "1 devices connected" :=
  ⟨(updateConnectionStatus_spec []).1 rfl,
   ((updateConnectionStatus_spec
      [{ name := "dev1", connected := true, nodes := none }]).2.mpr
        ⟨by decide, by decide⟩).trans (by decide)⟩

end Dashboard
